import Mathlib

/-!
Verification development for the OpenOutdoors trail explorer (src/app.js).

The JavaScript source is shallowly embedded: JSON numbers become rationals,
JS objects holding tags become association lists, the node and way indexes
(plain JS objects used as maps) become functions from ids to optional
records, and JS Set and Map values (insertion ordered) become lists with
set or map semantics.  Network and DOM effects are modelled as explicit
inputs and outputs of otherwise pure functions.
-/

/-- A coordinate pair, as produced from node lat and lon fields. -/
abbrev Coord := ℚ × ℚ

/-- OSM tags: a list of key and value pairs, as built from a JSON tags
object or from XML tag elements (later assignments to the same key win,
matching JS object assignment). -/
abbrev Tags := List (String × String)

/-- JS object property read: the last binding of the key wins (repeated
assignments to the same key overwrite), absent keys give none. -/
def Tags.get (ts : Tags) (k : String) : Option String :=
  (ts.reverse.find? (fun p => p.1 == k)).map (fun p => p.2)

/-- JS truthiness guard followed by use of the value, as in
tags?.name || fallback: a present but empty string is falsy and behaves
like an absent key. -/
def tagOr (ts : Tags) (k : String) : Option String :=
  match Tags.get ts k with
  | some v => if v = "" then none else some v
  | none => none

/-- A node element from an Overpass response.  lat and lon may be missing
in malformed data, hence options. -/
structure NodeEl where
  id : Int
  lat : Option ℚ
  lon : Option ℚ
deriving DecidableEq

/-- A relation member, with its kind (node, way or relation) and the id of
the referenced element. -/
structure Member where
  type : String
  ref : Int
deriving DecidableEq

/-- A way element from an Overpass response; the node id list may be
absent (the source guards with element.nodes). -/
structure WayEl where
  id : Int
  nodes : Option (List Int)
  tags : Tags
deriving DecidableEq

/-- A relation element from an Overpass response. -/
structure RelEl where
  id : Int
  tags : Tags
  members : Option (List Member)
deriving DecidableEq

/-- One element of the flat Overpass response list (data.elements). -/
inductive Element where
  | node : NodeEl → Element
  | way : WayEl → Element
  | relation : RelEl → Element
deriving DecidableEq

/-- The intermediate way record stored in the ways index
(app.js lines 355-360): id, tags and resolved coordinates. -/
structure WayRec where
  id : Int
  tags : Tags
  coordinates : List Coord
deriving DecidableEq

/-- JS truthiness of an optional number: absent and zero are both falsy.
This is the test node.lat (and node.lon) of the coordinate filter in
app.js line 351. -/
def numTruthy : Option ℚ → Bool
  | none => false
  | some q => q != 0

/-- The coordinate extracted from a node by the filter and map of app.js
lines 351-352: kept only when both lat and lon are truthy. -/
def coordOfNode (n : NodeEl) : Option Coord :=
  if numTruthy n.lat && numTruthy n.lon then
    some (n.lat.getD 0, n.lon.getD 0)
  else
    none

/-- First pass of processSearchResults (app.js lines 340-344): index node
elements by id; a later node with the same id overwrites an earlier one,
as JS object assignment does. -/
def nodeIndex (elements : List Element) : Int → Option NodeEl :=
  elements.foldl
    (fun idx e =>
      match e with
      | .node n => fun i => if i = n.id then some n else idx i
      | _ => idx)
    (fun _ => none)

/-- Way coordinate resolution (app.js lines 349-352):
element.nodes.map(nodeId => nodes[nodeId])
  .filter(node => node && node.lat && node.lon)
  .map(node => [node.lat, node.lon]).
The map, filter, map chain is fused into one filterMap whose per-id
function is lookup followed by coordOfNode (exactly the filter test and
the final projection). -/
def resolveWayCoords (nodes : Int → Option NodeEl) (nodeIds : List Int) : List Coord :=
  nodeIds.filterMap (fun nid => (nodes nid).bind coordOfNode)

/-- The per-way step of the second pass (app.js lines 347-362): a way with
a node list is kept, and indexed, only when at least one coordinate
resolved (coords.length > 0). -/
def processWayElement (nodes : Int → Option NodeEl) (w : WayEl) : Option WayRec :=
  match w.nodes with
  | none => none
  | some nids =>
    let coords := resolveWayCoords nodes nids
    if coords.length > 0 then
      some { id := w.id, tags := w.tags, coordinates := coords }
    else
      none

/-- Second pass of processSearchResults (app.js lines 346-363): index kept
ways by id, later ways with the same id overwriting earlier ones. -/
def wayIndex (elements : List Element) (nodes : Int → Option NodeEl) :
    Int → Option WayRec :=
  elements.foldl
    (fun idx e =>
      match e with
      | .way w =>
        match processWayElement nodes w with
        | some wrec => fun i => if i = w.id then some wrec else idx i
        | none => idx
      | _ => idx)
    (fun _ => none)

/-- The network tier display names of getTrailDescription
(app.js lines 431-437); an unknown network value falls back to itself. -/
def networkName (n : String) : String :=
  if n = "iwn" then "International"
  else if n = "nwn" then "National"
  else if n = "rwn" then "Regional"
  else if n = "lwn" then "Local"
  else n

/-- getTrailDescription (app.js lines 427-451): an ordered list of labeled
fragments from the tags, joined by a separator; the fixed fallback when no
recognized tag is present.  Each if (tags?.key) guard is JS truthiness, so
empty strings behave like absent keys (tagOr). -/
def getTrailDescription (tags : Tags) : String :=
  let parts : List String :=
    (match tagOr tags "network" with
     | some n => [networkName n]
     | none => []) ++
    (match tagOr tags "sac_scale" with
     | some s => ["Difficulty: " ++ s]
     | none => []) ++
    (match tagOr tags "trail_visibility" with
     | some s => ["Visibility: " ++ s]
     | none => []) ++
    (match tagOr tags "surface" with
     | some s => ["Surface: " ++ s]
     | none => [])
  if parts.length > 0 then String.intercalate " • " parts else "Hiking trail"

/-- Trail name derivation: tags?.name || tags?.ref || the fallback string
built from the id (app.js line 372). -/
def trailName (tags : Tags) (id : Int) : String :=
  ((tagOr tags "name").getD ((tagOr tags "ref").getD ("Trail " ++ toString id)))

/-- The central Trail entity (app.js lines 368-381 and 1920-1936).
The source stores child trails as object references; since each id has one
trail object per batch, childRelations is modelled by the list of child
ids.  The members field of the source record is only consumed while the
geometry is assembled, so it is not retained here. -/
structure Trail where
  id : Int
  name : String
  description : String
  tags : Tags
  coordinates : List Coord
  wayGroups : List (List Coord)
  distance : Option String
  isSuperRoute : Bool
  isNetwork : Bool
  childRelations : Option (List Int)
  isParentOnly : Bool
  mergedParentIds : Option (List Int)
deriving DecidableEq

/-- One iteration of the member loop of the third pass
(app.js lines 385-391): for a member of kind way with a resolved way
record, push the way coordinates as one wayGroups entry and extend the
flat coordinates list. -/
def geomStep (ways : Int → Option WayRec) (acc : List Coord × List (List Coord))
    (m : Member) : List Coord × List (List Coord) :=
  if m.type = "way" then
    match ways m.ref with
    | some w => (acc.1 ++ w.coordinates, acc.2 ++ [w.coordinates])
    | none => acc
  else acc

/-- The member loop of the third pass (app.js lines 384-392). -/
def collectGeometry (ways : Int → Option WayRec) (members : List Member) :
    List Coord × List (List Coord) :=
  members.foldl (geomStep ways) ([], [])

/-- The trail record built for one relation element by the third pass
(app.js lines 368-392). -/
def relTrail (ways : Int → Option WayRec) (r : RelEl) : Trail :=
  { id := r.id
    name := trailName r.tags r.id
    description := getTrailDescription r.tags
    tags := r.tags
    coordinates := (collectGeometry ways (r.members.getD [])).1
    wayGroups := (collectGeometry ways (r.members.getD [])).2
    distance := tagOr r.tags "distance"
    isSuperRoute := Tags.get r.tags "type" == some "superroute"
    isNetwork := Tags.get r.tags "type" == some "network"
    childRelations := none
    isParentOnly := false
    mergedParentIds := none }

/-- The per-relation step of the third pass (app.js lines 366-397): build
the trail from the tags and member geometry, and keep the relation only
when its coordinate list is non-empty (app.js line 394). -/
def processRelElement (ways : Int → Option WayRec) (r : RelEl) : Option Trail :=
  if (relTrail ways r).coordinates.length > 0 then some (relTrail ways r) else none

/-- The geometry assembly of processSearchResults (app.js lines 331-398):
three passes over the flat element list, producing the relations list. -/
def processRelations (elements : List Element) : List Trail :=
  let nodes := nodeIndex elements
  let ways := wayIndex elements nodes
  elements.filterMap
    (fun e =>
      match e with
      | .relation r => processRelElement ways r
      | _ => none)

/-- The per-relation step of fetchTrailsByRefs (app.js lines 1695-1724):
identical geometry assembly, but the trail record carries no isSuperRoute
or isNetwork key (an absent key is falsy downstream, modelled false). -/
def refRelTrail (ways : Int → Option WayRec) (r : RelEl) : Trail :=
  { id := r.id
    name := trailName r.tags r.id
    description := getTrailDescription r.tags
    tags := r.tags
    coordinates := (collectGeometry ways (r.members.getD [])).1
    wayGroups := (collectGeometry ways (r.members.getD [])).2
    distance := tagOr r.tags "distance"
    isSuperRoute := false
    isNetwork := false
    childRelations := none
    isParentOnly := false
    mergedParentIds := none }

/-- The keep test of the refs pipeline (app.js line 1721). -/
def processRefRelElement (ways : Int → Option WayRec) (r : RelEl) : Option Trail :=
  if (refRelTrail ways r).coordinates.length > 0 then some (refRelTrail ways r) else none

/-- The response processing of fetchTrailsByRefs (app.js lines 1662-1727):
the same three passes as processSearchResults. -/
def fetchTrailsByRefs (elements : List Element) : List Trail :=
  let nodes := nodeIndex elements
  let ways := wayIndex elements nodes
  elements.filterMap
    (fun e =>
      match e with
      | .relation r => processRefRelElement ways r
      | _ => none)

/-- JS Set.add: insertion ordered, keeps the first occurrence. -/
def jsSetAdd {α : Type} [DecidableEq α] (s : List α) (a : α) : List α :=
  if a ∈ s then s else s ++ [a]

/-- new Set(xs): insertion ordered deduplication of a list. -/
def jsSetOfList {α : Type} [DecidableEq α] (l : List α) : List α :=
  l.foldl jsSetAdd []

/-- JS Set.delete. -/
def jsSetDelete (s : List Int) (a : Int) : List Int :=
  s.filter (fun x => !(x == a))

/-- The whole in-memory Trail Store state of the app singleton
(app.js lines 10-27), together with the persistence adapter contents
(the single localStorage key) and the toast notices shown so far. -/
structure AppState where
  savedTrails : List Trail
  allTrails : List Trail
  trailsById : Int → Option Trail
  savedTrailIds : List Int
  storage : Option (List Trail)
  toasts : List String

/-- loadSavedTrails (app.js lines 1431-1442), success path: read the
persisted array (empty when the key is absent) and rebuild the saved-id
cache from it.  Returns the trails and the cache value it assigns. -/
def loadSavedTrails (storage : Option (List Trail)) : List Trail × List Int :=
  let trails := storage.getD []
  (trails, jsSetOfList (trails.map (fun t => t.id)))

/-- The constructor body (app.js lines 10-28), statement by statement.
Line 14 runs loadSavedTrails, which assigns the saved-id cache as a side
effect; line 21 then assigns a fresh empty Set to the same field,
overwriting the cache just built. -/
def constructorState (storage : Option (List Trail)) : AppState :=
  let loaded := loadSavedTrails storage
  -- line 14: this.savedTrails = this.loadSavedTrails()
  --   (inside, line 1436: this.savedTrailIds = new Set(trails.map(t => t.id)))
  let s : AppState :=
    { savedTrails := loaded.1
      allTrails := []                 -- line 15
      trailsById := fun _ => none     -- declared later, empty until line 20
      savedTrailIds := loaded.2
      storage := storage
      toasts := [] }
  let s := { s with trailsById := fun _ => none }  -- line 20: new Map()
  let s := { s with savedTrailIds := [] }          -- line 21: new Set()
  s

/-- init (app.js lines 30-54) with no share parameters in the URL:
line 41 copies the saved trails into allTrails; neither updateTrailsUI nor
loadSharedTrails touches the indexes on this path. -/
def initState (s : AppState) : AppState :=
  { s with allTrails := s.savedTrails }

/-- Construction with persisted trails loaded: constructor then init. -/
def startApp (storage : Option (List Trail)) : AppState :=
  initState (constructorState storage)

/-- updateTrailIndexes (app.js lines 1456-1461): clear the id index and
re-insert every trail of allTrails (later entries overwrite earlier). -/
def updateTrailIndexes (s : AppState) : AppState :=
  { s with
    trailsById :=
      s.allTrails.foldl (fun m t => fun i => if i = t.id then some t else m i)
        (fun _ => none) }

/-- saveSavedTrails (app.js lines 1444-1453), success path: serialize the
saved list to storage and rebuild the saved-id cache. -/
def saveSavedTrails (s : AppState) : AppState :=
  { s with
    storage := some s.savedTrails
    savedTrailIds := jsSetOfList (s.savedTrails.map (fun t => t.id)) }

/-- The merge of processSearchResults (app.js lines 400-406): drop every
new trail whose id already occurs among the saved trails, then concatenate
saved trails with the remaining new ones. -/
def mergeSearchResults (saved newResults : List Trail) : List Trail :=
  saved ++ newResults.filter (fun t => !(saved.any (fun sv => sv.id == t.id)))

/-- saveTrail (app.js lines 1303-1330): silently return when the id is not
in the index; toast and return when the saved-id cache already holds the
id; otherwise push onto the saved list and persist.  Map moves and
recoloring are render-adapter effects and carry no store state. -/
def saveTrail (s : AppState) (trailId : Int) : AppState :=
  match s.trailsById trailId with
  | none => s
  | some trail =>
    if trail.id ∈ s.savedTrailIds then
      { s with toasts := s.toasts ++ ["Trail already saved!"] }
    else
      let s1 := { s with savedTrails := s.savedTrails ++ [trail] }
      let s2 := saveSavedTrails s1
      { s2 with toasts := s2.toasts ++ ["Saved: " ++ trail.name] }

/-- removeTrail (app.js lines 1385-1402): filter the id out of both lists,
persist, and rebuild the id index. -/
def removeTrail (s : AppState) (trailId : Int) : AppState :=
  let s1 := { s with savedTrails := s.savedTrails.filter (fun t => !(t.id == trailId)) }
  let s2 := saveSavedTrails s1
  let s3 := { s2 with allTrails := s2.allTrails.filter (fun t => !(t.id == trailId)) }
  let s4 := updateTrailIndexes s3
  { s4 with toasts := s4.toasts ++ ["Trail removed"] }

/-- clearSavedTrails (app.js lines 1404-1429) with the confirm dialog
accepted: drop every trail whose id is in the saved-id cache from
allTrails, rebuild the index, then empty and persist the saved list. -/
def clearSavedTrails (s : AppState) : AppState :=
  if s.savedTrails.isEmpty then
    { s with toasts := s.toasts ++ ["No saved trails to clear"] }
  else
    let s1 := { s with allTrails := s.allTrails.filter (fun t => !(s.savedTrailIds.contains t.id)) }
    let s2 := updateTrailIndexes s1
    let s3 := { s2 with savedTrails := [] }
    let s4 := saveSavedTrails s3
    { s4 with toasts := s4.toasts ++ ["All trails cleared"] }

/-- The store effect of the refs branch of loadSharedTrails
(app.js lines 1559-1577) once the fetched trails are known: push each
fetched trail not already saved (the membership test sees the pushes made
earlier in the same loop), persist, and reset allTrails to the saved list
without rebuilding the id index. -/
def loadSharedTrailsMerge (s : AppState) (trails : List Trail) : AppState :=
  if trails.length > 0 then
    let saved' :=
      trails.foldl
        (fun acc trail => if acc.any (fun t => t.id == trail.id) then acc else acc ++ [trail])
        s.savedTrails
    let s1 := { s with savedTrails := saved' }
    let s2 := saveSavedTrails s1
    { s2 with
      allTrails := s2.savedTrails
      toasts := s2.toasts ++ ["Loaded shared trails!"] }
  else
    { s with toasts := s.toasts ++ ["No trails could be loaded from shared link"] }

/-- A parent relation record built by fetchParentRelations
(app.js lines 1809-1815). -/
structure Parent where
  id : Int
  tags : Tags
  name : String
  isSuperRoute : Bool
  isNetwork : Bool
deriving DecidableEq

/-- One relation block of the parent-lookup XML, already split into its id
attribute and its tag children. -/
structure XmlRelation where
  id : Int
  tags : Tags
deriving DecidableEq

/-- The acceptance test of app.js line 1808: the type tag is exactly
route, superroute or network. -/
def isRouteParent (tags : Tags) : Bool :=
  Tags.get tags "type" == some "route" ||
  Tags.get tags "type" == some "superroute" ||
  Tags.get tags "type" == some "network"

/-- The parent record built from an accepted relation block
(app.js lines 1809-1815). -/
def parentFromXml (r : XmlRelation) : Parent :=
  { id := r.id
    tags := r.tags
    name := (tagOr r.tags "name").getD ((tagOr r.tags "ref").getD ("Relation " ++ toString r.id))
    isSuperRoute := Tags.get r.tags "type" == some "superroute"
    isNetwork := Tags.get r.tags "type" == some "network" }

/-- The relation loop of fetchParentRelations (app.js lines 1796-1817):
keep exactly the blocks whose type tag passes isRouteParent. -/
def parseParentRelations (rels : List XmlRelation) : List Parent :=
  rels.filterMap (fun r => if isRouteParent r.tags then some (parentFromXml r) else none)

/-- The possible outcomes of one parent-lookup HTTP round trip, as
distinguished by fetchParentRelations (app.js lines 1748-1824): the fetch
itself throwing, a non-ok status, an ok response with an empty or
whitespace body, a body the XML parser rejects, and a parsed document with
its relation elements. -/
inductive LookupOutcome where
  | netError : LookupOutcome
  | httpNotOk : Nat → LookupOutcome
  | emptyBody : LookupOutcome
  | parseFailure : LookupOutcome
  | parsedRels : List XmlRelation → LookupOutcome
deriving DecidableEq

/-- fetchParentRelations (app.js lines 1748-1824) as a function of the
round-trip outcome.  A 404 returns the empty list directly (line 1764);
any other non-ok status throws and is caught by the catch of line 1820,
which also returns the empty list, as do the empty-body, parse-error and
no-relation-elements branches. -/
def fetchParentRelations : LookupOutcome → List Parent
  | .netError => []
  | .httpNotOk status => if status == 404 then [] else []
  | .emptyBody => []
  | .parseFailure => []
  | .parsedRels rels => if rels.isEmpty then [] else parseParentRelations rels

/-- The per-child lookup phase of organizeTrailHierarchy
(app.js lines 1839-1880): each child is looked up independently and kept,
paired with its parents, exactly when some parent was found.  Batch
boundaries only schedule the calls; the resulting list order is the trail
order.  The processed-set guard is omitted: it only matters when the same
trail object occurs twice in the input list. -/
def gatherStep (lookup : Int → LookupOutcome) (t : Trail) : Option (Trail × List Parent) :=
  let parents := fetchParentRelations (lookup t.id)
  if parents.isEmpty then none else some (t, parents)

def gatherParentResults (trails : List Trail) (lookup : Int → LookupOutcome) :
    List (Trail × List Parent) :=
  trails.filterMap (gatherStep lookup)

/-- JS Map lookup in an association list whose keys are unique by
construction. -/
def alookup {α β : Type} [DecidableEq α] (l : List (α × β)) (k : α) : Option β :=
  (l.find? (fun p => p.1 == k)).map (fun p => p.2)

/-- parentMap update (app.js lines 1865-1868): create the entry on first
sight, then push the child onto it. -/
def addChildToParent (pm : List (Int × List Trail)) (pid : Int) (t : Trail) :
    List (Int × List Trail) :=
  if pm.any (fun e => e.1 == pid) then
    pm.map (fun e => if e.1 = pid then (e.1, e.2 ++ [t]) else e)
  else
    pm ++ [(pid, [t])]

/-- parentsByName update (app.js lines 1871-1876): create the entry on
first sight, then append the parent id unless already present. -/
def addParentName (pbn : List (String × List Int)) (nm : String) (pid : Int) :
    List (String × List Int) :=
  if pbn.any (fun e => e.1 == nm) then
    pbn.map (fun e => if e.1 = nm then (e.1, if pid ∈ e.2 then e.2 else e.2 ++ [pid]) else e)
  else
    pbn ++ [(nm, [pid])]

/-- Recording one parent of one gathered child in both maps
(app.js lines 1864-1877). -/
def recordParent (childTrail : Trail)
    (acc : List (Int × List Trail) × List (String × List Int)) (parent : Parent) :
    List (Int × List Trail) × List (String × List Int) :=
  (addChildToParent acc.1 parent.id childTrail, addParentName acc.2 parent.name parent.id)

/-- The grouping loop of organizeTrailHierarchy (app.js lines 1859-1880):
for every gathered result, record each of its parents in both maps. -/
def buildParentMaps (results : List (Trail × List Parent)) :
    List (Int × List Trail) × List (String × List Int) :=
  results.foldl (fun acc r => r.2.foldl (recordParent r.1) acc) ([], [])

/-- The parentRelations field assigned to a child at app.js line 1848,
recovered from the gathered results (object identity becomes value
identity: results hold one entry per child). -/
def resultParents (results : List (Trail × List Parent)) (child : Trail) : List Parent :=
  ((results.find? (fun r => r.1 == child)).map (fun r => r.2)).getD []

/-- The parent-info search of app.js lines 1895-1902: the first child of
the parent whose parentRelations list holds this parent id. -/
def firstParentInfo (results : List (Trail × List Parent)) (children : List Trail)
    (pid : Int) : Option Parent :=
  children.findSome? (fun child => (resultParents results child).find? (fun p => p.id == pid))

/-- The parentInfos accumulation of app.js lines 1891-1907. -/
def parentInfosFor (results : List (Trail × List Parent)) (pm : List (Int × List Trail))
    (parentIds : List Int) : List (Int × Parent) :=
  parentIds.filterMap
    (fun pid =>
      (firstParentInfo results ((alookup pm pid).getD []) pid).map (fun info => (pid, info)))

/-- The synthetic parent Trail created at app.js lines 1920-1936. -/
def mkParentTrail (parentName : String) (primaryId : Int) (info : Parent)
    (childIds : List Int) (parentIds : List Int) : Trail :=
  { id := primaryId
    name := parentName
    description := getTrailDescription info.tags
    tags := info.tags
    coordinates := []
    wayGroups := []
    distance := tagOr info.tags "distance"
    isSuperRoute := info.isSuperRoute
    isNetwork := info.isNetwork
    childRelations := some childIds
    isParentOnly := true
    mergedParentIds := some parentIds }

/-- The merge loop of organizeTrailHierarchy (app.js lines 1886-1957): for
each distinct parent display name, union the children of all same-named
parent ids (a JS Set, so insertion ordered and deduplicated), pick the
first-encountered parent id and info as canonical, and either create a new
parent-only Trail or update the existing trail with that id in place.
The returned list holds the created or updated parent entries in name
order. -/
def organizeTrailHierarchy (results : List (Trail × List Parent))
    (trailsById : Int → Option Trail) : List Trail :=
  let maps := buildParentMaps results
  maps.2.flatMap
    (fun entry =>
      let parentIds := entry.2
      let allChildren :=
        jsSetOfList (parentIds.flatMap (fun pid => (alookup maps.1 pid).getD []))
      let parentInfos := parentInfosFor results maps.1 parentIds
      match parentInfos with
      | [] => []
      | (primaryId, primaryInfo) :: _ =>
        if allChildren.length > 0 then
          match trailsById primaryId with
          | none =>
            [mkParentTrail entry.1 primaryId primaryInfo
              (allChildren.map (fun c => c.id)) parentIds]
          | some existing =>
            [{ existing with
                childRelations := some (allChildren.map (fun c => c.id))
                mergedParentIds := some parentIds }]
        else [])

/-- The selection state of the Hit-Test engine: the highlighted-id Set
(app.js line 17) and the log of focusTrail calls made, in order. -/
structure UIState where
  highlighted : List Int
  focusLog : List Int
deriving DecidableEq

/-- focusTrail (app.js lines 1267-1301): a viewport jump, recorded in the
focus log; it does not change the selection set. -/
def focusTrail (st : UIState) (trailId : Int) : UIState :=
  { st with focusLog := st.focusLog ++ [trailId] }

/-- selectTrail (app.js lines 843-878): add the id to the selection set;
recoloring and pane moves are render effects.  Focus only when asked. -/
def selectTrail (st : UIState) (trailId : Int) (shouldFocus : Bool) : UIState :=
  let st1 := { st with highlighted := jsSetAdd st.highlighted trailId }
  if shouldFocus then focusTrail st1 trailId else st1

/-- deselectTrail (app.js lines 880-911): remove the id; no focus. -/
def deselectTrail (st : UIState) (trailId : Int) : UIState :=
  { st with highlighted := jsSetDelete st.highlighted trailId }

/-- toggleTrailHighlight (app.js lines 1220-1229). -/
def toggleTrailHighlight (st : UIState) (trailId : Int) : UIState :=
  if trailId ∈ st.highlighted then deselectTrail st trailId
  else selectTrail st trailId true

/-- The per-hit step of the multi-select branch (app.js lines 759-763):
select the hit without focusing unless it is already highlighted. -/
def selectIfNew (s : UIState) (id : Int) : UIState :=
  if id ∈ s.highlighted then s else selectTrail s id false

/-- handleTrailClick (app.js lines 743-770) with the Voronoi overlay
disabled, so only the tolerance branch runs.  The hits parameter stands
for the value of findTrailsAtPoint at the click point, whose geometric
scan over the rendered polylines is floating-point and is abstracted
here; clickedId is the trail whose hit polyline delivered the event. -/
def handleTrailClick (st : UIState) (clickedId : Int) (hits : List Int) : UIState :=
  if hits.length > 1 then
    let st1 := hits.foldl selectIfNew st
    focusTrail st1 hits.headI
  else
    toggleTrailHighlight st clickedId

/-- A minimal concrete trail used by witnesses. -/
def mkTrail (i : Int) : Trail :=
  { id := i
    name := ""
    description := ""
    tags := []
    coordinates := []
    wayGroups := []
    distance := none
    isSuperRoute := false
    isNetwork := false
    childRelations := none
    isParentOnly := false
    mergedParentIds := none }

/-- A concrete Overpass response used by witnesses: two nodes, one way
through them, one relation with that way as its only member. -/
def sampleElements : List Element :=
  [ .node { id := 1, lat := some 1, lon := some 2 }
  , .node { id := 2, lat := some 3, lon := some 4 }
  , .way { id := 10, nodes := some [1, 2], tags := [] }
  , .relation { id := 100, tags := [("route", "hiking"), ("name", "Ridge Trail")],
                members := some [{ type := "way", ref := 10 }] } ]

/-- The trail that geometry assembly produces from sampleElements. -/
def sampleTrail : Trail :=
  { id := 100
    name := "Ridge Trail"
    description := "Hiking trail"
    tags := [("route", "hiking"), ("name", "Ridge Trail")]
    coordinates := [(1, 2), (3, 4)]
    wayGroups := [[(1, 2), (3, 4)]]
    distance := none
    isSuperRoute := false
    isNetwork := false
    childRelations := none
    isParentOnly := false
    mergedParentIds := none }

/-- The invariant of the member loop: the flat coordinate accumulator
always equals the flattening of the group accumulator. -/
theorem geomStep_fold_join (ways : Int → Option WayRec) :
    ∀ (members : List Member) (acc : List Coord × List (List Coord)),
      acc.1 = acc.2.flatten →
      (members.foldl (geomStep ways) acc).1 = (members.foldl (geomStep ways) acc).2.flatten := by
  intro members
  induction members with
  | nil => intro acc h; simpa using h
  | cons m ms ih =>
    intro acc h
    simp only [List.foldl_cons]
    apply ih
    unfold geomStep
    by_cases hm : m.type = "way"
    · simp only [hm, if_true]
      cases hw : ways m.ref with
      | none => exact h
      | some w => simp [h, List.flatten_append]
    · simp [hm, h]

/-- Both coordinate outputs of the member loop agree. -/
theorem collectGeometry_join (ways : Int → Option WayRec) (members : List Member) :
    (collectGeometry ways members).1 = (collectGeometry ways members).2.flatten :=
  geomStep_fold_join ways members ([], []) rfl

/-- A trail emitted by the search pipeline has coordinates equal to its
flattened way groups. -/
theorem processRelElement_join (ways : Int → Option WayRec) (r : RelEl) (t : Trail)
    (h : processRelElement ways r = some t) : t.coordinates = t.wayGroups.flatten := by
  unfold processRelElement at h
  split at h
  · injection h with h
    subst h
    exact collectGeometry_join ways (r.members.getD [])
  · cases h

/-- A trail emitted by the refs pipeline has coordinates equal to its
flattened way groups. -/
theorem processRefRelElement_join (ways : Int → Option WayRec) (r : RelEl) (t : Trail)
    (h : processRefRelElement ways r = some t) : t.coordinates = t.wayGroups.flatten := by
  unfold processRefRelElement at h
  split at h
  · injection h with h
    subst h
    exact collectGeometry_join ways (r.members.getD [])
  · cases h

/-- Claim C2: for every Trail produced by geometry assembly (the search
pipeline of processSearchResults and the share-link pipeline of
fetchTrailsByRefs), concatenating the entries of its wayGroups in order
yields exactly its coordinates list. -/
theorem trail_wayGroups_join_coordinates (elements : List Element) (t : Trail) :
    (t ∈ processRelations elements → t.coordinates = t.wayGroups.flatten) ∧
    (t ∈ fetchTrailsByRefs elements → t.coordinates = t.wayGroups.flatten) := by
  constructor
  · intro ht
    unfold processRelations at ht
    rw [List.mem_filterMap] at ht
    obtain ⟨e, _, he⟩ := ht
    cases e with
    | relation r => exact processRelElement_join _ r t he
    | node n => cases he
    | way w => cases he
  · intro ht
    unfold fetchTrailsByRefs at ht
    rw [List.mem_filterMap] at ht
    obtain ⟨e, _, he⟩ := ht
    cases e with
    | relation r => exact processRefRelElement_join _ r t he
    | node n => cases he
    | way w => cases he

/-- Witness for C2: the sample response produces sampleTrail, and the
theorem applies to it. -/
theorem trail_wayGroups_join_coordinates_witness :
    sampleTrail ∈ processRelations sampleElements ∧
      sampleTrail.coordinates = sampleTrail.wayGroups.flatten :=
  ⟨by decide, (trail_wayGroups_join_coordinates sampleElements sampleTrail).1 (by decide)⟩

/-- Dropping the unresolvable ids from the input of a filterMap does not
change its output. -/
theorem filterMap_drop_none {α β : Type} (f : α → Option β) :
    ∀ l : List α, l.filterMap f = (l.filter (fun a => (f a).isSome)).filterMap f := by
  intro l
  induction l with
  | nil => rfl
  | cons a t ih =>
    cases h : f a with
    | none => simp [List.filterMap_cons, List.filter_cons, h, ih]
    | some b => simp [List.filterMap_cons, List.filter_cons, h, ih]

/-- A trail emitted by the per-relation step has non-empty coordinates. -/
theorem processRelElement_nonempty (ways : Int → Option WayRec) (r : RelEl) (t : Trail)
    (h : processRelElement ways r = some t) : t.coordinates ≠ [] := by
  unfold processRelElement at h
  split at h
  · rename_i hlen
    injection h with h
    subst h
    exact List.length_pos.mp hlen
  · cases h

/-- Claim C6: during geometry assembly, a node id with no resolved
coordinate is dropped without aborting the way (removing such ids from the
node list leaves the resolved coordinates unchanged); a way with a node
list is kept if and only if at least one coordinate resolved; a relation
is discarded exactly when its collected coordinate list is empty; hence
every emitted Trail has a non-empty coordinates list. -/
theorem geometry_assembly_guards :
    (∀ (nodes : Int → Option NodeEl) (nodeIds : List Int),
      resolveWayCoords nodes nodeIds =
        resolveWayCoords nodes
          (nodeIds.filter (fun nid => ((nodes nid).bind coordOfNode).isSome))) ∧
    (∀ (nodes : Int → Option NodeEl) (w : WayEl) (nids : List Int),
      w.nodes = some nids →
      ((processWayElement nodes w).isSome ↔ resolveWayCoords nodes nids ≠ [])) ∧
    (∀ (ways : Int → Option WayRec) (r : RelEl),
      processRelElement ways r = none ↔
        (collectGeometry ways (r.members.getD [])).1 = []) ∧
    (∀ (elements : List Element) (t : Trail),
      t ∈ processRelations elements → t.coordinates ≠ []) := by
  refine ⟨?_, ?_, ?_, ?_⟩
  · intro nodes nodeIds
    exact filterMap_drop_none _ nodeIds
  · intro nodes w nids hw
    unfold processWayElement
    rw [hw]
    by_cases h : resolveWayCoords nodes nids = []
    · simp [h]
    · have : 0 < (resolveWayCoords nodes nids).length := List.length_pos.mpr h
      simp [this, h]
  · intro ways r
    unfold processRelElement
    by_cases h : (collectGeometry ways (r.members.getD [])).1 = []
    · simp [relTrail, h]
    · have hpos : 0 < (collectGeometry ways (r.members.getD [])).1.length :=
        List.length_pos.mpr h
      simp [relTrail, hpos, h]
  · intro elements t ht
    unfold processRelations at ht
    rw [List.mem_filterMap] at ht
    obtain ⟨e, _, he⟩ := ht
    cases e with
    | relation r => exact processRelElement_nonempty _ r t he
    | node n => cases he
    | way w => cases he

/-- Witness for C6: a concrete node index and way, and the emitted sample
trail, satisfy the guard statements. -/
theorem geometry_assembly_guards_witness :
    ((⟨10, some [1, 99], []⟩ : WayEl).nodes = some [1, 99] ∧
      ((processWayElement (fun i => if i = 1 then some ⟨1, some 1, some 2⟩ else none)
          (⟨10, some [1, 99], []⟩ : WayEl)).isSome ↔
        resolveWayCoords (fun i => if i = 1 then some ⟨1, some 1, some 2⟩ else none)
          [1, 99] ≠ [])) ∧
    (sampleTrail ∈ processRelations sampleElements ∧ sampleTrail.coordinates ≠ []) :=
  ⟨⟨rfl, geometry_assembly_guards.2.1
      (fun i => if i = 1 then some ⟨1, some 1, some 2⟩ else none) ⟨10, some [1, 99], []⟩
      [1, 99] rfl⟩,
   by decide,
   geometry_assembly_guards.2.2.2 sampleElements sampleTrail (by decide)⟩

/-- Claim C10: a node whose lat or lon is exactly zero is dropped by way
resolution exactly as if the node were absent from the index, because the
filter tests truthiness of lat and lon. -/
theorem zero_coordinate_node_like_absent :
    ∀ (nodes : Int → Option NodeEl) (nid : Int) (n : NodeEl) (nodeIds : List Int),
      nodes nid = some n →
      (n.lat = some 0 ∨ n.lon = some 0) →
      resolveWayCoords nodes nodeIds =
        resolveWayCoords (fun i => if i = nid then none else nodes i) nodeIds := by
  intro nodes nid n nodeIds hn hz
  unfold resolveWayCoords
  apply List.filterMap_congr
  intro a _
  by_cases ha : a = nid
  · subst ha
    rw [hn]
    have hcn : coordOfNode n = none := by
      unfold coordOfNode
      rcases hz with h0 | h0 <;> simp [numTruthy, h0]
    simp [hcn]
  · simp [ha]

/-- Witness for C10: a node with lat zero at id 5 behaves like a missing
node when the way [5, 6] is resolved. -/
theorem zero_coordinate_node_like_absent_witness :
    ((fun i => if i = 5 then some (⟨5, some 0, some 7⟩ : NodeEl) else none) 5 =
        some (⟨5, some 0, some 7⟩ : NodeEl)) ∧
    resolveWayCoords (fun i => if i = 5 then some (⟨5, some 0, some 7⟩ : NodeEl) else none)
        [5, 6] =
      resolveWayCoords
        (fun i => if i = 5 then none
          else (fun j => if j = 5 then some (⟨5, some 0, some 7⟩ : NodeEl) else none) i)
        [5, 6] :=
  ⟨rfl, zero_coordinate_node_like_absent
    (fun i => if i = 5 then some (⟨5, some 0, some 7⟩ : NodeEl) else none) 5
    ⟨5, some 0, some 7⟩ [5, 6] rfl (Or.inl rfl)⟩

/-- A guarded filterMap is a filter followed by a map. -/
theorem filterMap_guard_eq {α β : Type} (p : α → Bool) (f : α → β) :
    ∀ l : List α,
      l.filterMap (fun a => if p a then some (f a) else none) = (l.filter p).map f := by
  intro l
  induction l with
  | nil => rfl
  | cons a t ih =>
    by_cases h : p a <;> simp [List.filterMap_cons, List.filter_cons, h, ih]

/-- Claim C7: a relation block of the parent-lookup response is included
in the returned parents list if and only if its type tag is exactly route,
superroute or network; every returned parent carries one of these type
tags. -/
theorem parent_type_filter (rels : List XmlRelation) :
    parseParentRelations rels =
      (rels.filter (fun r => isRouteParent r.tags)).map parentFromXml ∧
    (∀ p ∈ parseParentRelations rels,
      Tags.get p.tags "type" = some "route" ∨
      Tags.get p.tags "type" = some "superroute" ∨
      Tags.get p.tags "type" = some "network") := by
  constructor
  · exact filterMap_guard_eq (fun r => isRouteParent r.tags) parentFromXml rels
  · intro p hp
    unfold parseParentRelations at hp
    rw [List.mem_filterMap] at hp
    obtain ⟨r, _, hr⟩ := hp
    by_cases h : isRouteParent r.tags
    · rw [if_pos h] at hr
      injection hr with hr
      subst hr
      have h' := h
      unfold isRouteParent at h'
      rcases Bool.or_eq_true_iff.mp h' with h'' | h''
      · rcases Bool.or_eq_true_iff.mp h'' with h3 | h3
        · exact Or.inl (by simpa [parentFromXml] using beq_iff_eq.mp h3)
        · exact Or.inr (Or.inl (by simpa [parentFromXml] using beq_iff_eq.mp h3))
      · exact Or.inr (Or.inr (by simpa [parentFromXml] using beq_iff_eq.mp h''))
    · rw [if_neg h] at hr
      cases hr

/-- Witness for C7: a route relation is returned with its route type tag,
while evaluating the filter equation on a concrete two-block response. -/
theorem parent_type_filter_witness :
    parentFromXml ⟨77, [("type", "route"), ("name", "Loop")]⟩ ∈
        parseParentRelations
          [⟨77, [("type", "route"), ("name", "Loop")]⟩, ⟨78, [("type", "boundary")]⟩] ∧
    (Tags.get (parentFromXml ⟨77, [("type", "route"), ("name", "Loop")]⟩).tags "type" =
        some "route" ∨
      Tags.get (parentFromXml ⟨77, [("type", "route"), ("name", "Loop")]⟩).tags "type" =
        some "superroute" ∨
      Tags.get (parentFromXml ⟨77, [("type", "route"), ("name", "Loop")]⟩).tags "type" =
        some "network") :=
  ⟨by decide,
   (parent_type_filter
      [⟨77, [("type", "route"), ("name", "Loop")]⟩, ⟨78, [("type", "boundary")]⟩]).2
     (parentFromXml ⟨77, [("type", "route"), ("name", "Loop")]⟩) (by decide)⟩

/-- Claim C8: every failure outcome of an individual parent lookup yields
the empty parents list instead of a thrown error, and failing the lookup
of one child leaves the gathered results of all other children in the
batch unchanged (the failed child simply contributes no entry). -/
theorem lookup_failure_yields_empty :
    fetchParentRelations .netError = [] ∧
    (∀ status : Nat, fetchParentRelations (.httpNotOk status) = []) ∧
    fetchParentRelations .emptyBody = [] ∧
    fetchParentRelations .parseFailure = [] ∧
    fetchParentRelations (.parsedRels []) = [] ∧
    (∀ (trails : List Trail) (lookup : Int → LookupOutcome) (badId : Int),
      gatherParentResults trails (fun i => if i = badId then .netError else lookup i) =
        gatherParentResults (trails.filter (fun t => !(t.id == badId))) lookup) := by
  refine ⟨rfl, ?_, rfl, rfl, rfl, ?_⟩
  · intro status
    unfold fetchParentRelations
    exact ite_self _
  · intro trails lookup badId
    induction trails with
    | nil => rfl
    | cons t ts ih =>
      unfold gatherParentResults at ih ⊢
      rw [List.filterMap_cons, List.filter_cons]
      by_cases h : t.id = badId
      · have hb : (t.id == badId) = true := beq_iff_eq.mpr h
        have hstep :
            gatherStep (fun i => if i = badId then LookupOutcome.netError else lookup i) t =
              none := by
          simp [gatherStep, h, fetchParentRelations]
        rw [hstep, hb]
        simpa using ih
      · have hb : (t.id == badId) = false := beq_eq_false_iff_ne.mpr h
        have hstep :
            gatherStep (fun i => if i = badId then LookupOutcome.netError else lookup i) t =
              gatherStep lookup t := by
          simp [gatherStep, h]
        rw [hstep, hb]
        simp only [Bool.not_false, if_true, List.filterMap_cons]
        cases gatherStep lookup t <;> simp [ih]

/-- The filter test of the merge (app.js lines 401-403) holds exactly when
the id does not occur among the saved ids. -/
theorem mergePred_eq (S : List Trail) (t : Trail) :
    (!(S.any (fun sv => sv.id == t.id))) = decide (t.id ∉ S.map (fun tr => tr.id)) := by
  cases hany : S.any (fun sv => sv.id == t.id) with
  | true =>
    obtain ⟨sv, hsv, heq⟩ := List.any_eq_true.mp hany
    have hmem : t.id ∈ S.map (fun tr => tr.id) :=
      List.mem_map.mpr ⟨sv, hsv, beq_iff_eq.mp heq⟩
    simp [hmem]
  | false =>
    have hmem : t.id ∉ S.map (fun tr => tr.id) := by
      intro hmem
      obtain ⟨tr, htr, hid⟩ := List.mem_map.mp hmem
      have : S.any (fun sv => sv.id == t.id) = true :=
        List.any_eq_true.mpr ⟨tr, htr, beq_iff_eq.mpr hid⟩
      rw [this] at hany
      cases hany
    simp [hmem]

/-- Claim C1: merging saved trails S with processed search results R keeps
exactly S followed by the trails of R whose id is not in S; each saved id
occurs once, each new id occurs once, no id occurs twice, and a trail
carrying a saved id is the saved copy. -/
theorem merge_preserves_ids (S R : List Trail)
    (hS : (S.map (fun t => t.id)).Nodup) (hR : (R.map (fun t => t.id)).Nodup) :
    mergeSearchResults S R =
      S ++ R.filter (fun t => decide (t.id ∉ S.map (fun tr => tr.id))) ∧
    (∀ i ∈ S.map (fun t => t.id),
      ((mergeSearchResults S R).map (fun t => t.id)).count i = 1) ∧
    (∀ t ∈ R, t.id ∉ S.map (fun tr => tr.id) →
      ((mergeSearchResults S R).map (fun tr => tr.id)).count t.id = 1) ∧
    ((mergeSearchResults S R).map (fun t => t.id)).Nodup ∧
    (∀ t ∈ mergeSearchResults S R, t.id ∈ S.map (fun tr => tr.id) → t ∈ S) := by
  have hfilter :
      mergeSearchResults S R =
        S ++ R.filter (fun t => decide (t.id ∉ S.map (fun tr => tr.id))) := by
    unfold mergeSearchResults
    congr 1
    exact List.filter_congr (fun t _ => mergePred_eq S t)
  have hnodupF :
      ((R.filter (fun t => decide (t.id ∉ S.map (fun tr => tr.id)))).map
        (fun t => t.id)).Nodup :=
    List.Nodup.sublist ((List.filter_sublist R).map (fun t => t.id)) hR
  have hnotinS :
      ∀ t ∈ R.filter (fun t => decide (t.id ∉ S.map (fun tr => tr.id))),
        t.id ∉ S.map (fun tr => tr.id) := by
    intro t ht
    have := (List.mem_filter.mp ht).2
    simpa using this
  have hdisj :
      List.Disjoint (S.map (fun t => t.id))
        ((R.filter (fun t => decide (t.id ∉ S.map (fun tr => tr.id)))).map
          (fun t => t.id)) := by
    intro i hiS hiF
    obtain ⟨t, htF, hid⟩ := List.mem_map.mp hiF
    exact hnotinS t htF (hid ▸ hiS)
  refine ⟨hfilter, ?_, ?_, ?_, ?_⟩
  · intro i hi
    rw [hfilter, List.map_append, List.count_append]
    have h1 : (S.map (fun t => t.id)).count i = 1 := List.count_eq_one_of_mem hS hi
    have h0 :
        ((R.filter (fun t => decide (t.id ∉ S.map (fun tr => tr.id)))).map
          (fun t => t.id)).count i = 0 :=
      List.count_eq_zero.mpr (fun hiF => hdisj hi hiF)
    omega
  · intro t htR htid
    rw [hfilter, List.map_append, List.count_append]
    have h0 : (S.map (fun tr => tr.id)).count t.id = 0 := List.count_eq_zero.mpr htid
    have htF : t ∈ R.filter (fun t => decide (t.id ∉ S.map (fun tr => tr.id))) :=
      List.mem_filter.mpr ⟨htR, by simpa using htid⟩
    have h1 :
        ((R.filter (fun t => decide (t.id ∉ S.map (fun tr => tr.id)))).map
          (fun tr => tr.id)).count t.id = 1 :=
      List.count_eq_one_of_mem hnodupF (List.mem_map.mpr ⟨t, htF, rfl⟩)
    omega
  · rw [hfilter, List.map_append]
    exact List.Nodup.append hS hnodupF hdisj
  · intro t htM htid
    rw [hfilter] at htM
    rcases List.mem_append.mp htM with h | h
    · exact h
    · exact absurd htid (hnotinS t h)

/-- Witness for C1: merging a one-trail saved list with results that
repeat its id keeps no duplicate and counts the new id once. -/
theorem merge_preserves_ids_witness :
    ((mergeSearchResults [mkTrail 1] [mkTrail 1, mkTrail 2]).map (fun t => t.id)).Nodup ∧
    ((mergeSearchResults [mkTrail 1] [mkTrail 1, mkTrail 2]).map (fun t => t.id)).count 2 = 1 :=
  ⟨(merge_preserves_ids [mkTrail 1] [mkTrail 1, mkTrail 2] (by decide) (by decide)).2.2.2.1,
   (merge_preserves_ids [mkTrail 1] [mkTrail 1, mkTrail 2] (by decide) (by decide)).2.2.1
     (mkTrail 2) (by decide) (by decide)⟩

/-- Claim C4 failing input: the constructor sequence destroys the caches
that loadSavedTrails just built.  With one persisted trail, after
construction and init the saved list and the all-trails list both hold the
trail, yet the saved-id set is empty and the id index resolves nothing:
line 21 of app.js overwrites the saved-id cache assigned inside
loadSavedTrails at line 1436, and neither init nor loadSharedTrails calls
updateTrailIndexes. -/
theorem construction_leaves_caches_empty :
    (startApp (some [mkTrail 1])).savedTrails = [mkTrail 1] ∧
    (startApp (some [mkTrail 1])).allTrails = [mkTrail 1] ∧
    (startApp (some [mkTrail 1])).savedTrailIds = [] ∧
    (startApp (some [mkTrail 1])).trailsById 1 = none :=
  ⟨rfl, rfl, rfl, rfl⟩

/-- Claim C9: saveTrail silently returns when the id is unknown to the
index; returns with a notice and an unchanged saved set when the saved-id
set already holds the trail id; otherwise appends the trail to the saved
list and persists it. -/
theorem saveTrail_spec (s : AppState) (trailId : Int) :
    (s.trailsById trailId = none → saveTrail s trailId = s) ∧
    (∀ t, s.trailsById trailId = some t → t.id ∈ s.savedTrailIds →
      (saveTrail s trailId).savedTrails = s.savedTrails ∧
      (saveTrail s trailId).storage = s.storage ∧
      (saveTrail s trailId).savedTrailIds = s.savedTrailIds ∧
      (saveTrail s trailId).toasts = s.toasts ++ ["Trail already saved!"]) ∧
    (∀ t, s.trailsById trailId = some t → t.id ∉ s.savedTrailIds →
      (saveTrail s trailId).savedTrails = s.savedTrails ++ [t] ∧
      (saveTrail s trailId).storage = some (s.savedTrails ++ [t])) := by
  refine ⟨?_, ?_, ?_⟩
  · intro h
    unfold saveTrail
    rw [h]
  · intro t ht hmem
    unfold saveTrail
    rw [ht]
    simp [hmem]
  · intro t ht hmem
    unfold saveTrail
    rw [ht]
    simp [hmem, saveSavedTrails]

/-- Witness for C9: on a store knowing only trail 1 and with nothing
saved, saving an unknown id is the identity, and saving trail 1 appends
and persists it. -/
theorem saveTrail_spec_witness :
    saveTrail
        { savedTrails := []
          allTrails := [mkTrail 1]
          trailsById := fun i => if i = 1 then some (mkTrail 1) else none
          savedTrailIds := []
          storage := none
          toasts := [] } 2 =
      { savedTrails := []
        allTrails := [mkTrail 1]
        trailsById := fun i => if i = 1 then some (mkTrail 1) else none
        savedTrailIds := []
        storage := none
        toasts := [] } ∧
    (saveTrail
        { savedTrails := []
          allTrails := [mkTrail 1]
          trailsById := fun i => if i = 1 then some (mkTrail 1) else none
          savedTrailIds := []
          storage := none
          toasts := [] } 1).savedTrails = [] ++ [mkTrail 1] ∧
    (saveTrail
        { savedTrails := []
          allTrails := [mkTrail 1]
          trailsById := fun i => if i = 1 then some (mkTrail 1) else none
          savedTrailIds := []
          storage := none
          toasts := [] } 1).storage = some ([] ++ [mkTrail 1]) :=
  ⟨(saveTrail_spec _ 2).1 rfl,
   ((saveTrail_spec
      { savedTrails := []
        allTrails := [mkTrail 1]
        trailsById := fun i => if i = 1 then some (mkTrail 1) else none
        savedTrailIds := []
        storage := none
        toasts := [] } 1).2.2 (mkTrail 1) rfl (by decide)).1,
   ((saveTrail_spec
      { savedTrails := []
        allTrails := [mkTrail 1]
        trailsById := fun i => if i = 1 then some (mkTrail 1) else none
        savedTrailIds := []
        storage := none
        toasts := [] } 1).2.2 (mkTrail 1) rfl (by decide)).2⟩

/-- selectIfNew never writes the focus log. -/
theorem selectIfNew_focusLog (s : UIState) (id : Int) :
    (selectIfNew s id).focusLog = s.focusLog := by
  unfold selectIfNew selectTrail
  split <;> rfl

/-- The multi-select loop never writes the focus log. -/
theorem foldl_selectIfNew_focusLog :
    ∀ (hits : List Int) (st : UIState),
      (hits.foldl selectIfNew st).focusLog = st.focusLog := by
  intro hits
  induction hits with
  | nil => intro st; rfl
  | cons h t ih =>
    intro st
    rw [List.foldl_cons, ih, selectIfNew_focusLog]

/-- Adding to a JS Set keeps existing members. -/
theorem jsSetAdd_mem_of_mem {α : Type} [DecidableEq α] {s : List α} {x : α} (a : α)
    (hx : x ∈ s) : x ∈ jsSetAdd s a := by
  unfold jsSetAdd
  split
  · exact hx
  · exact List.mem_append_left _ hx

/-- Adding to a JS Set makes the added element a member. -/
theorem jsSetAdd_mem_self {α : Type} [DecidableEq α] (s : List α) (a : α) :
    a ∈ jsSetAdd s a := by
  unfold jsSetAdd
  split
  · assumption
  · exact List.mem_append_right _ (List.mem_singleton.mpr rfl)

/-- The multi-select loop keeps existing selections. -/
theorem foldl_selectIfNew_mono :
    ∀ (hits : List Int) (st : UIState) (x : Int),
      x ∈ st.highlighted → x ∈ (hits.foldl selectIfNew st).highlighted := by
  intro hits
  induction hits with
  | nil => intro st x hx; exact hx
  | cons h t ih =>
    intro st x hx
    rw [List.foldl_cons]
    apply ih
    unfold selectIfNew selectTrail
    split
    · exact hx
    · exact jsSetAdd_mem_of_mem h hx

/-- The multi-select loop selects every processed hit. -/
theorem foldl_selectIfNew_mem :
    ∀ (hits : List Int) (st : UIState) (h : Int),
      h ∈ hits → h ∈ (hits.foldl selectIfNew st).highlighted := by
  intro hits
  induction hits with
  | nil => intro st h hh; cases hh
  | cons a t ih =>
    intro st h hh
    rw [List.foldl_cons]
    rcases List.mem_cons.mp hh with rfl | hh
    · apply foldl_selectIfNew_mono
      unfold selectIfNew selectTrail
      split
      · assumption
      · exact jsSetAdd_mem_self _ h
    · exact ih _ h hh

/-- Claim C5: for a click handled in tolerance mode with hit list H that
contains the clicked trail: if H has more than one element, every trail of
H ends up selected and only the first element of H is focused; if H has
exactly one element, that element is the clicked trail and its selection
is toggled, focusing it exactly when it becomes selected.  The clicked
trail lies within tolerance of the click because the event fired on its
20px-wide hit polyline while the scan uses a 20px tolerance, hence the
membership hypothesis. -/
theorem handleTrailClick_tolerance (st : UIState) (clickedId : Int) (hits : List Int)
    (hc : clickedId ∈ hits) :
    (hits.length > 1 →
      (∀ h ∈ hits, h ∈ (handleTrailClick st clickedId hits).highlighted) ∧
      (handleTrailClick st clickedId hits).focusLog = st.focusLog ++ [hits.headI]) ∧
    (hits.length = 1 →
      hits = [clickedId] ∧
      (clickedId ∉ st.highlighted →
        (handleTrailClick st clickedId hits).highlighted =
          jsSetAdd st.highlighted clickedId ∧
        (handleTrailClick st clickedId hits).focusLog = st.focusLog ++ [clickedId]) ∧
      (clickedId ∈ st.highlighted →
        (handleTrailClick st clickedId hits).highlighted =
          jsSetDelete st.highlighted clickedId ∧
        (handleTrailClick st clickedId hits).focusLog = st.focusLog)) := by
  constructor
  · intro hlen
    unfold handleTrailClick
    rw [if_pos hlen]
    refine ⟨?_, ?_⟩
    · intro h hh
      exact foldl_selectIfNew_mem hits st h hh
    · simp only [focusTrail, foldl_selectIfNew_focusLog]
  · intro hlen
    have hsingle : hits = [clickedId] := by
      cases hits with
      | nil => cases hc
      | cons a t =>
        cases t with
        | nil =>
          rcases List.mem_cons.mp hc with rfl | hx
          · rfl
          · cases hx
        | cons b u => simp at hlen
    refine ⟨hsingle, ?_, ?_⟩
    · intro hnot
      unfold handleTrailClick
      rw [hsingle]
      rw [if_neg (by simp)]
      unfold toggleTrailHighlight
      rw [if_neg hnot]
      unfold selectTrail focusTrail
      exact ⟨rfl, rfl⟩
    · intro hmem
      unfold handleTrailClick
      rw [hsingle]
      rw [if_neg (by simp)]
      unfold toggleTrailHighlight
      rw [if_pos hmem]
      unfold deselectTrail
      exact ⟨rfl, rfl⟩

/-- Witness for C5: clicking trail 1 where trails 1 and 2 overlap selects
both and focuses only trail 1; clicking trail 3 alone from an empty
selection selects and focuses it. -/
theorem handleTrailClick_tolerance_witness :
    ((1 : Int) ∈ [(1 : Int), 2] ∧
      (∀ h ∈ [(1 : Int), 2],
        h ∈ (handleTrailClick ⟨[], []⟩ 1 [1, 2]).highlighted) ∧
      (handleTrailClick ⟨[], []⟩ 1 [1, 2]).focusLog = [] ++ [([(1 : Int), 2]).headI]) ∧
    ((3 : Int) ∈ [(3 : Int)] ∧
      (handleTrailClick ⟨[], []⟩ 3 [3]).highlighted = jsSetAdd [] 3 ∧
      (handleTrailClick ⟨[], []⟩ 3 [3]).focusLog = [] ++ [(3 : Int)]) :=
  ⟨⟨by decide, (handleTrailClick_tolerance ⟨[], []⟩ 1 [1, 2] (by decide)).1 (by decide)⟩,
   ⟨by decide,
    ((handleTrailClick_tolerance ⟨[], []⟩ 3 [3] (by decide)).2 rfl).2.1 (by decide)⟩⟩

/-- Folding the grouping step over children that all report the same
single parent is a componentwise fold of the two map updates. -/
theorem buildMaps_single_phase (par : Parent) :
    ∀ (cs : List Trail) (acc : List (Int × List Trail) × List (String × List Int)),
      (cs.map (fun c => (c, [par]))).foldl (fun a r => r.2.foldl (recordParent r.1) a) acc =
        (cs.foldl (fun pm c => addChildToParent pm par.id c) acc.1,
         cs.foldl (fun b _ => addParentName b par.name par.id) acc.2) := by
  intro cs
  induction cs with
  | nil => intro acc; rfl
  | cons c t ih =>
    intro acc
    exact ih (recordParent c acc par)

/-- Entries with other keys are untouched by the per-child update. -/
theorem addChild_map_pre (pid : Int) (c : Trail) :
    ∀ pre : List (Int × List Trail),
      (∀ e ∈ pre, e.1 ≠ pid) →
      pre.map (fun e => if e.1 = pid then (e.1, e.2 ++ [c]) else e) = pre := by
  intro pre
  induction pre with
  | nil => intro _; rfl
  | cons p ps ih =>
    intro hpre
    rw [List.map_cons, if_neg (hpre p (List.mem_cons_self p ps)),
      ih (fun e he => hpre e (List.mem_cons_of_mem p he))]

/-- Once the entry for this parent id exists at the end of the map, every
further child is appended to it. -/
theorem addChild_fold_existing (pid : Int) :
    ∀ (cs : List Trail) (pre : List (Int × List Trail)) (l : List Trail),
      (∀ e ∈ pre, e.1 ≠ pid) →
      cs.foldl (fun pm c => addChildToParent pm pid c) (pre ++ [(pid, l)]) =
        pre ++ [(pid, l ++ cs)] := by
  intro cs
  induction cs with
  | nil => intro pre l _; rw [List.append_nil]; rfl
  | cons c rest ih =>
    intro pre l hpre
    rw [List.foldl_cons]
    have hany : (pre ++ [(pid, l)]).any (fun e => e.1 == pid) = true := by
      rw [List.any_eq_true]
      exact ⟨(pid, l), List.mem_append_right _ (List.mem_singleton.mpr rfl), by simp⟩
    have hstep :
        addChildToParent (pre ++ [(pid, l)]) pid c = pre ++ [(pid, l ++ [c])] := by
      unfold addChildToParent
      rw [if_pos hany, List.map_append, addChild_map_pre pid c pre hpre]
      simp
    rw [hstep, ih pre (l ++ [c]) hpre, List.append_assoc]
    rfl

/-- Folding the per-child map update over a non-empty child list creates
the entry for an unseen parent id and collects exactly those children. -/
theorem addChild_fold_new (pid : Int) (cs : List Trail) (pre : List (Int × List Trail))
    (hcs : cs ≠ []) (hpre : ∀ e ∈ pre, e.1 ≠ pid) :
    cs.foldl (fun pm c => addChildToParent pm pid c) pre = pre ++ [(pid, cs)] := by
  cases cs with
  | nil => cases hcs rfl
  | cons c rest =>
    rw [List.foldl_cons]
    have hany : pre.any (fun e => e.1 == pid) = false := by
      cases h : pre.any (fun e => e.1 == pid) with
      | false => rfl
      | true =>
        obtain ⟨e, he, heq⟩ := List.any_eq_true.mp h
        exact absurd (beq_iff_eq.mp heq) (hpre e he)
    have hstep : addChildToParent pre pid c = pre ++ [(pid, [c])] := by
      unfold addChildToParent
      rw [hany]
      rfl
    rw [hstep, addChild_fold_existing pid rest pre [c] hpre]
    rfl

/-- addParentName is the identity once the name entry exists and already
lists this parent id. -/
theorem addParentName_stable (nm : String) (pid : Int)
    (pbn : List (String × List Int))
    (hany : pbn.any (fun e => e.1 == nm) = true)
    (hmem : ∀ e ∈ pbn, e.1 = nm → pid ∈ e.2) :
    addParentName pbn nm pid = pbn := by
  unfold addParentName
  rw [if_pos hany]
  have : ∀ e ∈ pbn,
      (if e.1 = nm then (e.1, if pid ∈ e.2 then e.2 else e.2 ++ [pid]) else e) = e := by
    intro e he
    by_cases h : e.1 = nm
    · rw [if_pos h, if_pos (hmem e he h)]
    · rw [if_neg h]
  calc pbn.map (fun e => if e.1 = nm then (e.1, if pid ∈ e.2 then e.2 else e.2 ++ [pid]) else e)
      = pbn.map id := List.map_congr_left this
    _ = pbn := List.map_id pbn

/-- Folding the per-child name update over further children changes
nothing once the entry is complete. -/
theorem addName_fold_stable (nm : String) (pid : Int) :
    ∀ (cs : List Trail) (pbn : List (String × List Int)),
      pbn.any (fun e => e.1 == nm) = true →
      (∀ e ∈ pbn, e.1 = nm → pid ∈ e.2) →
      cs.foldl (fun b _ => addParentName b nm pid) pbn = pbn := by
  intro cs
  induction cs with
  | nil => intro pbn _ _; rfl
  | cons c rest ih =>
    intro pbn hany hmem
    rw [List.foldl_cons, addParentName_stable nm pid pbn hany hmem,
      ih pbn hany hmem]

/-- Folding the name update over a non-empty child list starting from the
empty map creates exactly one entry holding this parent id. -/
theorem addName_fold_new (nm : String) (pid : Int) (cs : List Trail) (hcs : cs ≠ []) :
    cs.foldl (fun b _ => addParentName b nm pid) [] = [(nm, [pid])] := by
  cases cs with
  | nil => cases hcs rfl
  | cons c rest =>
    rw [List.foldl_cons]
    have hstep : addParentName [] nm pid = [(nm, [pid])] := rfl
    rw [hstep]
    exact addName_fold_stable nm pid rest [(nm, [pid])] (by simp)
      (fun e he h => by
        rw [List.mem_singleton.mp he]
        exact List.mem_singleton.mpr rfl)

/-- Folding the name update of a same-named second parent over a non-empty
child list appends its id to the existing entry. -/
theorem addName_fold_merge (nm1 nm2 : String) (pid1 pid2 : Int) (cs : List Trail)
    (hcs : cs ≠ []) (hnm : nm2 = nm1) (hne : pid2 ≠ pid1) :
    cs.foldl (fun b _ => addParentName b nm2 pid2) [(nm1, [pid1])] =
      [(nm1, [pid1, pid2])] := by
  cases cs with
  | nil => cases hcs rfl
  | cons c rest =>
    rw [List.foldl_cons]
    have hstep : addParentName [(nm1, [pid1])] nm2 pid2 = [(nm1, [pid1, pid2])] := by
      unfold addParentName
      have hany : ([(nm1, [pid1])].any (fun e => e.1 == nm2)) = true := by
        simp [hnm]
      rw [if_pos hany, List.map_cons]
      rw [if_pos hnm.symm]
      have : pid2 ∉ ([pid1] : List Int) := by
        intro h
        exact hne (List.mem_singleton.mp h)
      rw [if_neg this]
      rfl
    rw [hstep]
    exact addName_fold_stable nm2 pid2 rest [(nm1, [pid1, pid2])] (by simp [hnm])
      (fun e he h => by
        rw [List.mem_singleton.mp he]
        simp)

/-- The grouping maps built from two same-named parents with non-empty,
separate child lists: one child-map entry per parent id in encounter
order, and one name entry listing both parent ids in encounter order. -/
theorem buildParentMaps_two_groups (P Q : Parent) (cs1 cs2 : List Trail)
    (hname : Q.name = P.name) (hid : P.id ≠ Q.id) (h1 : cs1 ≠ []) (h2 : cs2 ≠ []) :
    buildParentMaps (cs1.map (fun c => (c, [P])) ++ cs2.map (fun c => (c, [Q]))) =
      ([(P.id, cs1), (Q.id, cs2)], [(P.name, [P.id, Q.id])]) := by
  unfold buildParentMaps
  rw [List.foldl_append]
  rw [buildMaps_single_phase P cs1, buildMaps_single_phase Q cs2]
  dsimp only
  have hpm1 : cs1.foldl (fun pm c => addChildToParent pm P.id c) [] = [(P.id, cs1)] := by
    have := addChild_fold_new P.id cs1 [] h1 (by intro e he; cases he)
    simpa using this
  have hpbn1 : cs1.foldl (fun b _ => addParentName b P.name P.id) [] = [(P.name, [P.id])] :=
    addName_fold_new P.name P.id cs1 h1
  rw [hpm1, hpbn1]
  have hpm2 :
      cs2.foldl (fun pm c => addChildToParent pm Q.id c) [(P.id, cs1)] =
        [(P.id, cs1), (Q.id, cs2)] := by
    have := addChild_fold_new Q.id cs2 [(P.id, cs1)] h2
      (by
        intro e he
        rw [List.mem_singleton.mp he]
        exact hid)
    simpa using this
  have hpbn2 :
      cs2.foldl (fun b _ => addParentName b Q.name Q.id) [(P.name, [P.id])] =
        [(P.name, [P.id, Q.id])] :=
    addName_fold_merge P.name Q.name P.id Q.id cs2 h2 hname (fun h => hid h.symm)
  rw [hpm2, hpbn2]

/-- Folding JS Set insertion over fresh, duplicate-free elements appends
them in order. -/
theorem foldl_jsSetAdd {α : Type} [DecidableEq α] :
    ∀ (l acc : List α), (∀ x ∈ l, x ∉ acc) → l.Nodup →
      l.foldl jsSetAdd acc = acc ++ l := by
  intro l
  induction l with
  | nil => intro acc _ _; rw [List.append_nil]; rfl
  | cons a t ih =>
    intro acc hfresh hnd
    rw [List.foldl_cons]
    have hstep : jsSetAdd acc a = acc ++ [a] := by
      unfold jsSetAdd
      rw [if_neg (hfresh a (List.mem_cons_self a t))]
    rw [hstep, ih (acc ++ [a]) ?fresh (List.Nodup.of_cons hnd), List.append_assoc]
    · rfl
    case fresh =>
      intro x hx hmem
      rcases List.mem_append.mp hmem with h | h
      · exact hfresh x (List.mem_cons_of_mem a hx) h
      · rw [List.mem_singleton.mp h] at hx
        exact (List.nodup_cons.mp hnd).1 hx

/-- A JS Set built from a duplicate-free list is that list. -/
theorem jsSetOfList_of_nodup {α : Type} [DecidableEq α] (l : List α) (h : l.Nodup) :
    jsSetOfList l = l := by
  unfold jsSetOfList
  have := foldl_jsSetAdd l [] (fun x _ hx => (List.not_mem_nil x) hx) h
  simpa using this

/-- The merge loop of organizeTrailHierarchy on two same-named parents
with separate non-empty child lists creates exactly one parent-only trail
whose children are all the children in encounter order and whose merged
ids are both parent ids. -/
theorem organize_merges_same_name (P Q : Parent) (cs1 cs2 : List Trail)
    (trailsById : Int → Option Trail)
    (hname : Q.name = P.name) (hid : P.id ≠ Q.id) (h1 : cs1 ≠ []) (h2 : cs2 ≠ [])
    (hnd : (cs1 ++ cs2).Nodup) (hnew : trailsById P.id = none) :
    organizeTrailHierarchy (cs1.map (fun c => (c, [P])) ++ cs2.map (fun c => (c, [Q])))
        trailsById =
      [mkParentTrail P.name P.id P ((cs1 ++ cs2).map (fun c => c.id)) [P.id, Q.id]] := by
  obtain ⟨hn1, hn2, hdisj⟩ := List.nodup_append.mp hnd
  obtain ⟨c1, r1, rfl⟩ := List.exists_cons_of_ne_nil h1
  obtain ⟨c2, r2, rfl⟩ := List.exists_cons_of_ne_nil h2
  set cs1 := c1 :: r1 with hcs1
  set cs2 := c2 :: r2 with hcs2
  set results := cs1.map (fun c => (c, [P])) ++ cs2.map (fun c => (c, [Q])) with hres
  have hQP : (P.id == Q.id) = false := beq_eq_false_iff_ne.mpr hid
  have ha1 : alookup [(P.id, cs1), (Q.id, cs2)] P.id = some cs1 := by
    simp [alookup]
  have ha2 : alookup [(P.id, cs1), (Q.id, cs2)] Q.id = some cs2 := by
    simp [alookup, hQP]
  have hrpA : resultParents results c1 = [P] := by
    unfold resultParents
    rw [hres, hcs1, List.map_cons, List.cons_append, List.find?_cons_of_pos _ (by simp)]
    rfl
  have hrpB : resultParents results c2 = [Q] := by
    unfold resultParents
    rw [hres, List.find?_append]
    have hnone : (cs1.map (fun c => (c, [P]))).find? (fun r => r.1 == c2) = none := by
      rw [List.find?_eq_none]
      intro x hx
      obtain ⟨c, hc, rfl⟩ := List.mem_map.mp hx
      have hne : c ≠ c2 := fun h => hdisj hc (h ▸ List.mem_cons_self c2 r2)
      simp [hne]
    rw [hnone, Option.none_or, hcs2, List.map_cons,
      List.find?_cons_of_pos _ (by simp)]
    rfl
  have hfpA : firstParentInfo results cs1 P.id = some P := by
    unfold firstParentInfo
    rw [hcs1, List.findSome?_cons, hrpA]
    simp
  have hfpB : firstParentInfo results cs2 Q.id = some Q := by
    unfold firstParentInfo
    rw [hcs2, List.findSome?_cons, hrpB]
    simp
  have hinfos :
      parentInfosFor results [(P.id, cs1), (Q.id, cs2)] [P.id, Q.id] =
        [(P.id, P), (Q.id, Q)] := by
    unfold parentInfosFor
    rw [List.filterMap_cons, List.filterMap_cons, List.filterMap_nil,
      ha1, ha2]
    simp only [Option.getD_some]
    rw [hfpA, hfpB]
    rfl
  have hchildren :
      jsSetOfList ([P.id, Q.id].flatMap
          (fun pid => (alookup [(P.id, cs1), (Q.id, cs2)] pid).getD [])) =
        cs1 ++ cs2 := by
    rw [List.flatMap_cons, List.flatMap_cons, List.flatMap_nil, ha1, ha2]
    simp only [Option.getD_some, List.append_nil]
    exact jsSetOfList_of_nodup _ hnd
  have hlen : 0 < (cs1 ++ cs2).length := by
    rw [hcs1]
    simp
  unfold organizeTrailHierarchy
  rw [buildParentMaps_two_groups P Q cs1 cs2 hname hid h1 h2]
  simp only [List.flatMap_cons, List.flatMap_nil, List.append_nil]
  rw [ha1, ha2]
  simp only [Option.getD_some]
  rw [jsSetOfList_of_nodup _ hnd, hinfos]
  dsimp only
  rw [if_pos hlen, hnew]

/-- Claim C3: two fetched parent relations with the same display name and
disjoint child sets (each child reporting its one parent) produce exactly
one synthetic parent entry: its childRelations is the union of the two
child sets with size the sum of the two sizes, its canonical id is the
first-encountered parent id, and all merged parent ids are recorded. -/
theorem parent_merge_by_name (P Q : Parent) (cs1 cs2 : List Trail)
    (trailsById : Int → Option Trail)
    (hname : Q.name = P.name) (hid : P.id ≠ Q.id) (h1 : cs1 ≠ []) (h2 : cs2 ≠ [])
    (hnd : (cs1 ++ cs2).Nodup) (hnew : trailsById P.id = none) :
    ∃ t : Trail,
      organizeTrailHierarchy
          (cs1.map (fun c => (c, [P])) ++ cs2.map (fun c => (c, [Q]))) trailsById = [t] ∧
      t.id = P.id ∧
      t.isParentOnly = true ∧
      t.name = P.name ∧
      t.childRelations = some ((cs1 ++ cs2).map (fun c => c.id)) ∧
      t.mergedParentIds = some [P.id, Q.id] ∧
      ((cs1 ++ cs2).map (fun c => c.id)).length = cs1.length + cs2.length := by
  refine ⟨mkParentTrail P.name P.id P ((cs1 ++ cs2).map (fun c => c.id)) [P.id, Q.id],
    organize_merges_same_name P Q cs1 cs2 trailsById hname hid h1 h2 hnd hnew,
    rfl, rfl, rfl, ?_, rfl, by simp⟩
  rfl

/-- Witness for C3: two parents both named Coast Path with children trail
1 and trail 2 merge into a single synthetic parent. -/
theorem parent_merge_by_name_witness :
    ∃ t : Trail,
      organizeTrailHierarchy
          ([mkTrail 1].map
            (fun c =>
              (c, [({ id := 100, tags := [("type", "route"), ("name", "Coast Path")],
                      name := "Coast Path", isSuperRoute := false,
                      isNetwork := false } : Parent)])) ++
           [mkTrail 2].map
            (fun c =>
              (c, [({ id := 200, tags := [("type", "route"), ("name", "Coast Path")],
                      name := "Coast Path", isSuperRoute := false,
                      isNetwork := false } : Parent)])))
          (fun _ => none) = [t] ∧
      t.id = (100 : Int) ∧
      t.isParentOnly = true ∧
      t.name = "Coast Path" ∧
      t.childRelations = some (([mkTrail 1] ++ [mkTrail 2]).map (fun c => c.id)) ∧
      t.mergedParentIds = some [(100 : Int), 200] ∧
      (([mkTrail 1] ++ [mkTrail 2]).map (fun c => c.id)).length =
        [mkTrail 1].length + [mkTrail 2].length :=
  parent_merge_by_name
    { id := 100, tags := [("type", "route"), ("name", "Coast Path")],
      name := "Coast Path", isSuperRoute := false, isNetwork := false }
    { id := 200, tags := [("type", "route"), ("name", "Coast Path")],
      name := "Coast Path", isSuperRoute := false, isNetwork := false }
    [mkTrail 1] [mkTrail 2] (fun _ => none)
    rfl (by decide) (by decide) (by decide) (by decide) rfl
